import Mathlib

/-!
# Verification of the `@safekit/route` typed route-registry and URL builder

This development shallowly embeds the core of the repository:

* the `Router` class (`register`, `path`, `URL`, `href`, `paths`, the
  throwing `Paths` getter) from the router source file;
* the template engine (`extractParamNames`, substitution with
  `encodeURIComponent`);
* `standardValidate` from `src/validator.ts`;
* `createParseFn` from `src/parser.ts` (the multi-library schema adapter);
* the four named query serializers from `src/query-serializers.ts`.

JavaScript runtime values that flow through these functions are modelled by
the inductive `JVal`.  Arrays and objects are encoded constructor-style
(`arrCons`/`arrNil`, `objCons`/`objNil`) so that every function below is
structurally recursive and reduces inside the kernel; the helpers
`JVal.arrL` and `JVal.objL` build them from Lean lists.

Host-environment primitives used by the source (`encodeURIComponent`,
`String(...)` conversion, `String.prototype.replace` with a string pattern,
`URLSearchParams`, `JSON.stringify`) are modelled from their ECMAScript /
WHATWG definitions.  The external `qs` library (`qs.stringify` with the
`arrayFormat` option) is modelled from the behaviour the specification
ascribes to the serializer strategies, with the encoding details fixed by
the repository's own serializer tests.
-/

namespace Route

/-- A JavaScript runtime value.  Arrays and objects are encoded
constructor-style so that recursion over them is structural:
`arrCons h t` is the array with head `h` and tail (array) `t`,
`objCons k v r` is the object with first field `k : v` and rest `r`. -/
inductive JVal where
  | str (s : String)
  | num (n : Int)
  | bool (b : Bool)
  | null
  | undefined
  | arrNil
  | arrCons (head : JVal) (tail : JVal)
  | objNil
  | objCons (key : String) (val : JVal) (rest : JVal)
  deriving DecidableEq, Repr

/-- Build an encoded array value from a list of values. -/
def JVal.arrL (xs : List JVal) : JVal := xs.foldr .arrCons .arrNil

/-- Build an encoded object value from a list of fields. -/
def JVal.objL (fs : List (String × JVal)) : JVal :=
  fs.foldr (fun kv acc => .objCons kv.1 kv.2 acc) .objNil

/-- A JavaScript plain object used as a params/query mapping
(`Record<string, unknown>` in the source), kept as an association list in
insertion order. -/
abbrev Omap := List (String × JVal)

/-- JS `key in obj`: does the mapping have the key? -/
def hasKey (m : Omap) (k : String) : Bool := m.any (fun kv => kv.1 == k)

/-- JS property access `obj[key]`: the value at the key, `undefined` when
absent. -/
def getVal (m : Omap) (k : String) : JVal :=
  match m.find? (fun kv => kv.1 == k) with
  | some kv => kv.2
  | none => .undefined

/-- A word character of the placeholder regex class `[a-zA-Z0-9_]`. -/
def isWordChar (c : Char) : Bool := c.isAlphanum || c == '_'

/-- Helper for `extractParamNames`.  For a character list `l` it returns
`(names, wp)` where `names` is the list of placeholder names produced by
scanning `l` left to right for `:[a-zA-Z0-9_]+` tokens (one entry per
occurrence, exactly like `matchAll` with a global regex) and `wp` is the
longest word-character prefix of `l`.  Scanning a name's characters again
finds no further match in them (they contain no `:`), so recursing on the
tail is equivalent to recursing past the matched name. -/
def scanAux : List Char → (List String × List Char)
  | [] => ([], [])
  | c :: rest =>
    let p := scanAux rest
    ( if c == ':' then
        (if p.2 == [] then p.1 else String.mk p.2 :: p.1)
      else p.1,
      if isWordChar c then c :: p.2 else [] )

/-- `Router.extractParamNames`: all matches of `:([a-zA-Z0-9_]+)` in the
template, left to right, one entry per occurrence. -/
def extractParamNames (path : String) : List String := (scanAux path.data).1

/-- JS `String.prototype.replace` with a string pattern: replace the first
occurrence only (character-list worker). -/
def replaceFirstL (pat repl : List Char) : List Char → List Char
  | [] => []
  | c :: rest =>
    if pat.isPrefixOf (c :: rest) then repl ++ (c :: rest).drop pat.length
    else c :: replaceFirstL pat repl rest

/-- JS `s.replace(pat, repl)` for a string pattern (first occurrence,
literal replacement). -/
def jsReplaceFirst (s pat repl : String) : String :=
  String.mk (replaceFirstL pat.data repl.data s.data)

/-- JS `s.startsWith(pre)`. -/
def jsStartsWith (s pre : String) : Bool := pre.data.isPrefixOf s.data

/-- Upper-case hexadecimal digit of a value below 16. -/
def hexDigit (n : Nat) : Char :=
  if n < 10 then Char.ofNat (48 + n) else Char.ofNat (55 + n)

/-- UTF-8 bytes of a Unicode scalar value. -/
def utf8Bytes (n : Nat) : List Nat :=
  if n < 128 then [n]
  else if n < 2048 then [192 + n / 64, 128 + n % 64]
  else if n < 65536 then [224 + n / 4096, 128 + n / 64 % 64, 128 + n % 64]
  else [240 + n / 262144, 128 + n / 4096 % 64, 128 + n / 64 % 64, 128 + n % 64]

/-- `%XX` percent-escapes of a byte list, upper-case hex. -/
def pctBytes (bs : List Nat) : List Char :=
  bs.flatMap (fun b => ['%', hexDigit (b / 16), hexDigit (b % 16)])

/-- The characters `encodeURIComponent` leaves unescaped
(ECMA-262 `uriUnescaped`): alphanumerics and `- _ . ! ~ * ' ( )`. -/
def isUriUnescaped (c : Char) : Bool :=
  c.isAlphanum || c == '-' || c == '_' || c == '.' || c == '!' || c == '~' ||
    c == '*' || c == Char.ofNat 39 || c == '(' || c == ')'

/-- ECMA-262 `encodeURIComponent`. -/
def encodeURIComponent (s : String) : String :=
  String.mk (s.data.flatMap (fun c =>
    if isUriUnescaped c then [c] else pctBytes (utf8Bytes c.toNat)))

/-- The characters the `qs` encoder leaves unescaped in its default
RFC 3986 format: alphanumerics and `- . _ ~`. -/
def isQsUnescaped (c : Char) : Bool :=
  c.isAlphanum || c == '-' || c == '.' || c == '_' || c == '~'

/-- The `qs` library's percent-encoder (default RFC 3986 format),
applied to both keys (bracket paths included) and values. -/
def qsEncode (s : String) : String :=
  String.mk (s.data.flatMap (fun c =>
    if isQsUnescaped c then [c] else pctBytes (utf8Bytes c.toNat)))

/-- The characters the `application/x-www-form-urlencoded` serializer used
by `URLSearchParams.toString` leaves unescaped: alphanumerics and
`* - . _`; a space becomes `+`. -/
def isFormUnescaped (c : Char) : Bool :=
  c.isAlphanum || c == '*' || c == '-' || c == '.' || c == '_'

/-- WHATWG `application/x-www-form-urlencoded` escaping, as performed by
`URLSearchParams.toString`. -/
def formEncode (s : String) : String :=
  String.mk (s.data.flatMap (fun c =>
    if c == ' ' then ['+']
    else if isFormUnescaped c then [c]
    else pctBytes (utf8Bytes c.toNat)))

/-- JS `String(value)` conversion.  Arrays render as their elements joined
by commas with `null`/`undefined` elements rendered empty
(`Array.prototype.toString`); plain objects render as
`[object Object]`. -/
def jsString : JVal → String
  | .str s => s
  | .num n => toString n
  | .bool b => cond b "true" "false"
  | .null => "null"
  | .undefined => "undefined"
  | .arrNil => ""
  | .arrCons h t =>
    (match h with
     | .null => ""
     | .undefined => ""
     | _ => jsString h) ++
    (match t with
     | .arrNil => ""
     | _ => "," ++ jsString t)
  | .objNil => "[object Object]"
  | .objCons _ _ _ => "[object Object]"

/-- Minimal JSON string escaping (quote, backslash and the common control
characters; other characters pass through). -/
def jsonEscapeChar (c : Char) : List Char :=
  if c == '"' then ['\\', '"']
  else if c == '\\' then ['\\', '\\']
  else if c == '\n' then ['\\', 'n']
  else if c == '\r' then ['\\', 'r']
  else if c == '\t' then ['\\', 't']
  else [c]

/-- JSON escaping of a whole string body. -/
def jsonEscape (s : String) : String := String.mk (s.data.flatMap jsonEscapeChar)

mutual

/-- `JSON.stringify` on the value model.  `undefined` inside an array
renders as `null`; `undefined`-valued object fields are dropped. -/
def jsonStringify : JVal → String
  | .str s => "\"" ++ jsonEscape s ++ "\""
  | .num n => toString n
  | .bool b => cond b "true" "false"
  | .null => "null"
  | .undefined => "null"
  | .arrNil => "[]"
  | .arrCons h t =>
    "[" ++ ",".intercalate
      ((match h with
        | .undefined => "null"
        | _ => jsonStringify h) :: jsonArrItems t) ++ "]"
  | .objNil => "\x7b\x7d"
  | .objCons k v r =>
    "\x7b" ++ ",".intercalate
      (match v with
       | .undefined => jsonObjItems r
       | _ => ("\"" ++ jsonEscape k ++ "\":" ++ jsonStringify v) :: jsonObjItems r) ++ "\x7d"

/-- Rendered items of the tail of a JSON array spine. -/
def jsonArrItems : JVal → List String
  | .arrCons h t =>
    (match h with
     | .undefined => "null"
     | _ => jsonStringify h) :: jsonArrItems t
  | _ => []

/-- Rendered `"key":value` items of the tail of a JSON object spine,
with `undefined`-valued fields dropped. -/
def jsonObjItems : JVal → List String
  | .objCons k v r =>
    (match v with
     | .undefined => jsonObjItems r
     | _ => ("\"" ++ jsonEscape k ++ "\":" ++ jsonStringify v) :: jsonObjItems r)
  | _ => []

end

/-- The `arrayFormat` option of `qs.stringify` as used by the repository's
`brackets`, `indices` and `comma` serializer strategies. -/
inductive QsArrayFormat where
  | brackets
  | indices
  | comma
  deriving DecidableEq, Repr

/-- Modelled from the spec: the external `qs` library's `stringify` (its
recursive key worker).  The specification treats the query-string backend
as an external collaborator and describes the strategies' behaviour
(§4.4); the percent-encoding details (bracket paths and the comma join are
encoded like any other value text) are fixed by the repository's own
serializer tests.  `pre` is the unencoded bracket path of the current key;
`idx` is the element index used by the `indices` format; the produced
`key=value` items are already percent-encoded.  An `undefined` value
produces nothing, `null` produces an empty value, arrays recurse per
element (`comma` instead joins the whole array into one scalar rendering),
nested objects recurse with a `[subkey]` path. -/
def qsPairs (fmt : QsArrayFormat) : JVal → String → Nat → List String
  | .undefined, _, _ => []
  | .null, pre, _ => [qsEncode pre ++ "="]
  | .str s, pre, _ => [qsEncode pre ++ "=" ++ qsEncode s]
  | .num n, pre, _ => [qsEncode pre ++ "=" ++ qsEncode (jsString (.num n))]
  | .bool b, pre, _ => [qsEncode pre ++ "=" ++ qsEncode (jsString (.bool b))]
  | .arrNil, _, _ => []
  | .arrCons h t, pre, idx =>
    match fmt with
    | .comma => [qsEncode pre ++ "=" ++ qsEncode (jsString (.arrCons h t))]
    | .brackets => qsPairs fmt h (pre ++ "[]") 0 ++ qsPairs fmt t pre (idx + 1)
    | .indices =>
      qsPairs fmt h (pre ++ "[" ++ toString idx ++ "]") 0 ++ qsPairs fmt t pre (idx + 1)
  | .objNil, _, _ => []
  | .objCons k v r, pre, _ =>
    qsPairs fmt v (pre ++ "[" ++ k ++ "]") 0 ++ qsPairs fmt r pre 0

/-- Modelled from the spec: `qs.stringify(query, { arrayFormat: fmt })` on
a top-level mapping — each key's items joined by `&`. -/
def qsStringify (fmt : QsArrayFormat) (query : Omap) : String :=
  "&".intercalate (query.flatMap (fun kv => qsPairs fmt kv.2 kv.1 0))

/-- `querySerializers.brackets` from `src/query-serializers.ts`. -/
def serializeBrackets (query : Omap) : String := qsStringify .brackets query

/-- `querySerializers.indices` from `src/query-serializers.ts`. -/
def serializeIndices (query : Omap) : String := qsStringify .indices query

/-- `querySerializers.comma` from `src/query-serializers.ts`. -/
def serializeComma (query : Omap) : String := qsStringify .comma query

/-- The pairs `querySerializers.native` appends to its `URLSearchParams`:
`undefined` and `null` values are skipped, array elements are appended one
by one (skipping `null`/`undefined` elements), objects are stringified as
JSON, and any other value is appended via `String(value)`. -/
def nativePairs (k : String) : JVal → List (String × String)
  | .undefined => []
  | .null => []
  | .arrNil => []
  | .arrCons h t =>
    (match h with
     | .undefined => []
     | .null => []
     | item => [(k, jsString item)]) ++ nativePairs k t
  | .objNil => [(k, jsonStringify .objNil)]
  | .objCons k2 v r => [(k, jsonStringify (.objCons k2 v r))]
  | v => [(k, jsString v)]

/-- `querySerializers.native` from `src/query-serializers.ts`:
`URLSearchParams`-based serialization
(`application/x-www-form-urlencoded`). -/
def serializeNative (query : Omap) : String :=
  "&".intercalate ((query.flatMap (fun kv => nativePairs kv.1 kv.2)).map
    (fun kv => formEncode kv.1 ++ "=" ++ formEncode kv.2))

/-- A Standard Schema validation issue (`{message, path?}`). -/
structure Issue where
  message : String
  path : Option (List String)
  deriving DecidableEq, Repr

/-- A raised JavaScript error: either a plain `Error(message)` or a
`StandardSchemaV1Error` carrying the structured issue list. -/
inductive JSError where
  | error (msg : String)
  | stdIssues (issues : List Issue)
  deriving DecidableEq, Repr

/-- The result of a Standard Schema `["~standard"].validate(input)` call on
a params/query mapping, as consumed by `standardValidate` in
`src/validator.ts`: a failure result carrying `issues`, a success result
carrying the (object-typed) output `value`, or a pending `Promise`. -/
inductive StdResultO where
  | issues (is : List Issue)
  | value (v : Omap)
  | promise

/-- A `StandardSchemaV1<unknown, Record<string, unknown>>` handle as stored
in a route definition: modelled by its `["~standard"].validate`
operation. -/
abbrev StdSchema := Omap → StdResultO

/-- `standardValidate` from `src/validator.ts`: run the schema's
`validate`, reject a `Promise` result with the async error, raise a
`StandardSchemaV1Error` when `issues` is present, otherwise return the
output value. -/
def standardValidate (schema : StdSchema) (input : Omap) : Except JSError Omap :=
  match schema input with
  | .promise =>
    .error (.error "Async validation is not supported. Please use synchronous Standard Schema validation.")
  | .issues is => .error (.stdIssues is)
  | .value v => .ok v

namespace Adapter

/-- A parse function produced by `createParseFn` in `src/parser.ts`:
validated output or a raised error. -/
abbrev ParseFn := JVal → Except JSError JVal

/-- The result of a Standard Schema `validate` call at the `unknown` level
used by `createParseFn` (shape 7). -/
inductive PStdResult where
  | issues (is : List Issue)
  | value (v : JVal)
  | promise

/-- A non-null validator reference as duck-typed by `createParseFn`:
each recognized capability is present or absent.  `callable` is invocation
of the reference itself as a function; `assertMethod`, `parse`,
`validateSync` and `create` are the same-named methods; `std` is the
`["~standard"].validate` operation, present exactly when the reference
carries the `"~standard"` marker. -/
structure SchemaRef where
  callable : Option ParseFn
  assertMethod : Option ParseFn
  parse : Option ParseFn
  validateSync : Option ParseFn
  create : Option ParseFn
  std : Option (JVal → PStdResult)

/-- The `SchemaValidator` argument of `createParseFn`: the `null`
skip-validation marker or a validator reference. -/
inductive SchemaValidator where
  | nullMarker
  | ref (p : SchemaRef)

/-- Placeholder function used only to eliminate `Option.getD` defaults in
branches whose guard guarantees the option is `some`. -/
def idFn : ParseFn := fun v => .ok v

/-- `createParseFn` from `src/parser.ts`, translated branch by branch:

1. `null` marker → pass-through;
2. callable with an `assert` method (ArkType) → the bound `assert`;
3. callable without the `"~standard"` marker → the function itself;
4. `parse` method (Zod/Valibot) → the bound `parse`;
5. `validateSync` method (Yup) → the bound `validateSync`;
6. `create` method (Superstruct) → the bound `create`;
7. bare `assert` method (Scale) → run `assert`, return the raw input;
8. `"~standard"` marker → run `validate`; issues raise a
   `StandardSchemaV1Error`, otherwise the result's `value` is returned.
   A `Promise` result has no `issues` property (property access on a
   Promise yields `undefined`), so it falls through the `issues` check and
   `result.value` — also `undefined` — is returned;
9. otherwise → throw "Could not find a compatible parser method". -/
def createParseFn : SchemaValidator → Except JSError ParseFn
  | .nullMarker => .ok (fun v => .ok v)
  | .ref p =>
    if p.callable.isSome && p.assertMethod.isSome then
      .ok (p.assertMethod.getD idFn)
    else if p.callable.isSome && !p.std.isSome then
      .ok (p.callable.getD idFn)
    else if p.parse.isSome then
      .ok (p.parse.getD idFn)
    else if p.validateSync.isSome then
      .ok (p.validateSync.getD idFn)
    else if p.create.isSome then
      .ok (p.create.getD idFn)
    else if p.assertMethod.isSome then
      .ok (fun v =>
        match (p.assertMethod.getD idFn) v with
        | .ok _ => .ok v
        | .error e => .error e)
    else if p.std.isSome then
      .ok (fun v =>
        match (p.std.getD (fun _ => .promise)) v with
        | .issues is => .error (.stdIssues is)
        | .value w => .ok w
        | .promise => .ok .undefined)
    else .error (.error "Could not find a compatible parser method")

/-- Apply the parser produced by `createParseFn` to a value; a
configuration error at creation time propagates. -/
def runCreated (s : SchemaValidator) (v : JVal) : Except JSError JVal :=
  match createParseFn s with
  | .ok f => f v
  | .error e => .error e

/-- The recognized validator shapes of §4.1, in its numbering. -/
inductive Shape where
  | assertCallable
  | plainCallable
  | parseMethod
  | validateSyncMethod
  | createMethod
  | bareAssert
  | standardTagged
  deriving DecidableEq, Repr

/-- Shape detection as §4.1 words it: the fixed priority list
(callable-with-assert, plain callable without the standard marker, `parse`,
`validateSync`, `create`, bare `assert`, tagged-standard), first match
wins, `none` when no shape matches. -/
def detectShapeSpec (p : SchemaRef) : Option Shape :=
  if p.callable.isSome && p.assertMethod.isSome then some .assertCallable
  else if p.callable.isSome && !p.std.isSome then some .plainCallable
  else if p.parse.isSome then some .parseMethod
  else if p.validateSync.isSome then some .validateSyncMethod
  else if p.create.isSome then some .createMethod
  else if p.assertMethod.isSome then some .bareAssert
  else if p.std.isSome then some .standardTagged
  else none

/-- The parse function the source builds for each detected shape (the
branch bodies of `createParseFn`). -/
def shapeInvocation (p : SchemaRef) : Shape → ParseFn
  | .assertCallable => p.assertMethod.getD idFn
  | .plainCallable => p.callable.getD idFn
  | .parseMethod => p.parse.getD idFn
  | .validateSyncMethod => p.validateSync.getD idFn
  | .createMethod => p.create.getD idFn
  | .bareAssert => fun v =>
      match (p.assertMethod.getD idFn) v with
      | .ok _ => .ok v
      | .error e => .error e
  | .standardTagged => fun v =>
      match (p.std.getD (fun _ => .promise)) v with
      | .issues is => .error (.stdIssues is)
      | .value w => .ok w
      | .promise => .ok .undefined

end Adapter

/-- A `RouteDefinition`: the template string plus the optional Standard
Schema handles for params and query. -/
structure RouteDef where
  path : String
  params : Option StdSchema
  query : Option StdSchema

/-- Generic association-list membership test on string keys (the backing
model of the JS `Map` used by the registry). -/
def hasKeyA {α : Type} (m : List (String × α)) (k : String) : Bool :=
  m.any (fun kv => kv.1 == k)

/-- `Map.get`: first entry with the key. -/
def lookupA {α : Type} (m : List (String × α)) (k : String) : Option α :=
  match m.find? (fun kv => kv.1 == k) with
  | some kv => some kv.2
  | none => none

/-- `Map.set`: overwrite in place when the key is present (the entry keeps
its insertion position), append otherwise. -/
def mapSet {α : Type} (k : String) (v : α) : List (String × α) → List (String × α)
  | [] => [(k, v)]
  | kv :: rest => if kv.1 == k then (kv.1, v) :: rest else kv :: mapSet k v rest

/-- The `Router` instance state: the definitions map (insertion-ordered),
the constructor-level default base URL, and the selected query
serializer. -/
structure Router where
  definitions : List (String × RouteDef)
  defaultBaseUrl : Option String
  querySerializer : Omap → String

/-- The options record of the `Router` constructor. -/
structure RouterOptions where
  baseUrl : Option String
  querySerializer : Option (Omap → String)

/-- `createRouter` / the `Router` constructor: empty registry, the given
default base URL, and the supplied serializer or the `qs` brackets
default. -/
def createRouter (options : RouterOptions) : Router :=
  { definitions := []
    defaultBaseUrl := options.baseUrl
    querySerializer :=
      match options.querySerializer with
      | some f => f
      | none => fun query => qsStringify .brackets query }

/-- The warning text `register` logs for a duplicate template. -/
def warnMsg (p : String) : String :=
  "Route pattern \"" ++ p ++ "\" is being re-registered."

/-- `Router.register`: for each definition, warn when the template is
already present, then `Map.set` it.  The returned pair is the updated
router (the source returns `this`) and the sequence of warnings written to
the console. -/
def Router.register (r : Router) (defs : List RouteDef) : Router × List String :=
  defs.foldl
    (fun acc d =>
      ({ acc.1 with definitions := mapSet d.path d acc.1.definitions },
       if hasKeyA acc.1.definitions d.path then acc.2 ++ [warnMsg d.path] else acc.2))
    (r, [])

/-- The options record of a `path`/`URL`/`href` call (`baseUrl` is ignored
by `path`). -/
structure CallOptions where
  path : String
  params : Option Omap
  query : Option Omap
  baseUrl : Option String

/-- The unregistered-route error text. -/
def unregisteredMsg (p : String) : String :=
  "Route pattern \"" ++ p ++ "\" has not been registered"

/-- The missing-parameter error text of the raw-params check in
`validateInputs`. -/
def missingRawMsg (n route : String) : String :=
  "Missing required path parameter \"" ++ n ++ "\" for route \"" ++ route ++ "\""

/-- The missing-parameter error text of the substitution-time check in
`buildPathAndQuery`. -/
def missingSubstMsg (n : String) : String :=
  "Missing required path parameter \"" ++ n ++ "\""

/-- The `for (const paramName of paramNames)` presence loop of
`validateInputs`: throw at the first required placeholder missing from the
raw params. -/
def checkRequired (names : List String) (ps : Omap) (route : String) : Except JSError Unit :=
  match names with
  | [] => .ok ()
  | n :: rest =>
    if hasKey ps n then checkRequired rest ps route
    else .error (.error (missingRawMsg n route))

/-- The `if (definition.params) ... standardValidate` step: validate when a
schema is registered, pass the mapping through otherwise. -/
def runSchema (schema : Option StdSchema) (m : Omap) : Except JSError Omap :=
  match schema with
  | some s => standardValidate s m
  | none => .ok m

/-- `Router.validateInputs`: registry lookup, defaulting of absent
params/query to empty mappings, the raw-params presence check, then schema
validation of params and query. -/
def Router.validateInputs (r : Router) (options : CallOptions) :
    Except JSError (RouteDef × Omap × Omap) :=
  match lookupA r.definitions options.path with
  | none => .error (.error (unregisteredMsg options.path))
  | some definition =>
    let params := options.params.getD []
    let query := options.query.getD []
    match checkRequired (extractParamNames definition.path) params options.path with
    | .error e => .error e
    | .ok _ =>
      match runSchema definition.params params with
      | .error e => .error e
      | .ok validatedParams =>
        match runSchema definition.query query with
        | .error e => .error e
        | .ok validatedQuery => .ok (definition, validatedParams, validatedQuery)

/-- The substitution loop of `buildPathAndQuery`: for each extracted
placeholder (in scan order), re-check presence against the (validated)
params and replace the first occurrence of `:name` with the
percent-encoded string form of the value. -/
def substParams (names : List String) (acc : String) (ps : Omap) : Except JSError String :=
  match names with
  | [] => .ok acc
  | n :: rest =>
    if hasKey ps n then
      substParams rest
        (jsReplaceFirst acc (":" ++ n) (encodeURIComponent (jsString (getVal ps n)))) ps
    else .error (.error (missingSubstMsg n))

/-- `Router.buildPathAndQuery`: substitute placeholders, serialize the
query, enforce the leading slash, and append `?query` when the query
string is non-empty. -/
def Router.buildPathAndQuery (r : Router) (definition : RouteDef) (params query : Omap) :
    Except JSError String :=
  match substParams (extractParamNames definition.path) definition.path params with
  | .error e => .error e
  | .ok pathString =>
    let queryString := r.querySerializer query
    let finalPath := if jsStartsWith pathString "/" then pathString else "/" ++ pathString
    .ok (if queryString == "" then finalPath else finalPath ++ "?" ++ queryString)

/-- `Router.path`. -/
def Router.path (r : Router) (options : CallOptions) : Except JSError String :=
  match r.validateInputs options with
  | .error e => .error e
  | .ok (definition, params, query) => r.buildPathAndQuery definition params query

/-- The no-base-URL error text. -/
def noBaseMsg : String :=
  "Cannot build absolute URL: No baseUrl provided in options or constructor."

/-- Modelled from the spec: the value `new URL(relativePath,
effectiveBaseUrl)` constructs.  The WHATWG URL parser is part of the host
environment; the model records the constructor's two arguments. -/
structure URLValue where
  relative : String
  base : String
  deriving DecidableEq, Repr

/-- `Router.URL`: run the pipeline, then resolve the effective base URL as
the call-site override (`options.baseUrl ?? this.defaultBaseUrl`) and fail
when the result is falsy (absent or the empty string). -/
def Router.URLof (r : Router) (options : CallOptions) : Except JSError URLValue :=
  match r.validateInputs options with
  | .error e => .error e
  | .ok (definition, params, query) =>
    match r.buildPathAndQuery definition params query with
    | .error e => .error e
    | .ok relativePath =>
      match (match options.baseUrl with
             | some b => some b
             | none => r.defaultBaseUrl) with
      | none => .error (.error noBaseMsg)
      | some effectiveBaseUrl =>
        if effectiveBaseUrl == "" then .error (.error noBaseMsg)
        else .ok { relative := relativePath, base := effectiveBaseUrl }

/-- `Router.URL` as a state-passing call: the method body only reads the
router's fields, so the post-state is the receiver unchanged. -/
def Router.URLcall (r : Router) (options : CallOptions) :
    (Except JSError URLValue) × Router :=
  (r.URLof options, r)

/-- `Router.href` returns `this.URL(options).href`; the `href` getter is
the host environment's serialization of the URL value and cannot fail, so
the call is modelled by the URL value it renders. -/
def Router.hrefOf (r : Router) (options : CallOptions) : Except JSError URLValue :=
  r.URLof options

/-- `Router.paths`: the registered template strings in registration
order (`Map.keys`). -/
def Router.pathsList (r : Router) : List String :=
  r.definitions.map (fun kv => kv.1)

/-- The `Paths` getter: it unconditionally throws (it exists only for
static type extraction). -/
def Router.PathsPropOf (_r : Router) : Except JSError String :=
  .error (.error "Paths property is only for type extraction.")

/-- The first extracted placeholder (in template scan order) that has no
key in the mapping. -/
def firstMissing (names : List String) (m : Omap) : Option String :=
  names.find? (fun n => !hasKey m n)

/-- A template `/:n1/:n2/...` built from a list of names (the shape used to
state the extraction property). -/
def mkTemplate (names : List String) : String :=
  names.foldr (fun n acc => "/:" ++ n ++ acc) ""

/-- A tagged-standard validator whose `validate` returns a pending
`Promise` for every input. -/
def promiseRef : Adapter.SchemaRef :=
  { callable := none, assertMethod := none, parse := none,
    validateSync := none, create := none, std := some (fun _ => .promise) }

/-- Fixture: a bare router with two-placeholder template `/u/:a/:b` and no
schemas. -/
def defAB : RouteDef := { path := "/u/:a/:b", params := none, query := none }

/-- Fixture: router with `defAB` registered. -/
def routerAB : Router :=
  (Router.register (createRouter { baseUrl := none, querySerializer := none }) [defAB]).1

/-- Fixture: a params schema that drops every key (returns the empty
object), exercising the substitution-time re-check. -/
def dropAllSchema : StdSchema := fun _ => .value []

/-- Fixture: route `/w/:x` whose params schema drops all keys. -/
def defDropX : RouteDef := { path := "/w/:x", params := some dropAllSchema, query := none }

/-- Fixture: router with `defDropX` registered. -/
def routerDropX : Router :=
  (Router.register (createRouter { baseUrl := none, querySerializer := none }) [defDropX]).1

/-- Fixture: route `/x/:id` with no schemas. -/
def defXid : RouteDef := { path := "/x/:id", params := none, query := none }

/-- Fixture: router with `/x/:id` registered. -/
def routerXid : Router :=
  (Router.register (createRouter { baseUrl := none, querySerializer := none }) [defXid]).1

/-- Fixture: route whose template `t/:id` lacks the leading slash. -/
def defNoSlash : RouteDef := { path := "t/:id", params := none, query := none }

/-- Fixture: router with `t/:id` registered. -/
def routerNoSlash : Router :=
  (Router.register (createRouter { baseUrl := none, querySerializer := none }) [defNoSlash]).1

/-- Fixture: route `/home` with no schemas. -/
def defHome : RouteDef := { path := "/home", params := none, query := none }

/-- Fixture: a second definition under the same `/home` template with a
(distinguishable) params schema. -/
def defHome2 : RouteDef := { path := "/home", params := some dropAllSchema, query := none }

/-- Fixture: router with `/home` and `/about` registered. -/
def routerHome : Router :=
  (Router.register (createRouter { baseUrl := none, querySerializer := none })
    [defHome, { path := "/about", params := none, query := none }]).1

/-- Fixture: route `/t` with no schemas. -/
def defT : RouteDef := { path := "/t", params := none, query := none }

/-- Fixture: router with `/t` registered and no default base URL. -/
def routerNoBase : Router :=
  (Router.register (createRouter { baseUrl := none, querySerializer := none }) [defT]).1

/-- Fixture: router with `/t` registered and default base URL
`https://a.example`. -/
def routerWithBase : Router :=
  (Router.register (createRouter { baseUrl := some "https://a.example", querySerializer := none })
    [defT]).1

/-! ## Supporting lemmas -/

theorem isWordChar_ne_colon {c : Char} (h : isWordChar c = true) : (c == ':') = false := by
  rcases hb : c == ':' with _ | _
  · rfl
  · have : c = ':' := by
      have := (beq_iff_eq (a := c) (b := ':')).mp hb
      exact this
    subst this
    simp [isWordChar] at h

theorem scanAux_snd (l : List Char) : (scanAux l).2 = l.takeWhile isWordChar := by
  induction l with
  | nil => rfl
  | cons c rest ih =>
    simp only [scanAux, List.takeWhile_cons]
    by_cases h : isWordChar c
    · simp [h, ih]
    · simp [h]

theorem scanAux_fst_cons_word {c : Char} (l : List Char) (h : isWordChar c = true) :
    (scanAux (c :: l)).1 = (scanAux l).1 := by
  simp [scanAux, isWordChar_ne_colon h]

theorem scanAux_fst_cons_other {c : Char} (l : List Char) (h : (c == ':') = false) :
    (scanAux (c :: l)).1 = (scanAux l).1 := by
  simp [scanAux, h]

theorem scanAux_fst_words (n l : List Char) (h : ∀ c ∈ n, isWordChar c = true) :
    (scanAux (n ++ l)).1 = (scanAux l).1 := by
  induction n with
  | nil => rfl
  | cons c rest ih =>
    have hc : isWordChar c = true := h c (List.mem_cons_self c rest)
    rw [List.cons_append, scanAux_fst_cons_word _ hc]
    exact ih (fun x hx => h x (List.mem_cons_of_mem c hx))

theorem takeWhile_words_append (n l : List Char)
    (hn : ∀ c ∈ n, isWordChar c = true)
    (hl : l = [] ∨ ∃ c rest, l = c :: rest ∧ isWordChar c = false) :
    (n ++ l).takeWhile isWordChar = n := by
  induction n with
  | nil =>
    rcases hl with h | ⟨c, rest, rfl, hc⟩
    · simp [h]
    · simp [List.takeWhile_cons, hc]
  | cons c rest ih =>
    have hc : isWordChar c = true := hn c (List.mem_cons_self c rest)
    rw [List.cons_append, List.takeWhile_cons, hc]
    simp only [ite_true]
    rw [ih (fun x hx => hn x (List.mem_cons_of_mem c hx))]

theorem scanAux_fst_colon_name (n l : List Char)
    (hne : n ≠ [])
    (hn : ∀ c ∈ n, isWordChar c = true)
    (hl : l = [] ∨ ∃ c rest, l = c :: rest ∧ isWordChar c = false) :
    (scanAux (':' :: (n ++ l))).1 = String.mk n :: (scanAux l).1 := by
  have htw : (n ++ l).takeWhile isWordChar = n := takeWhile_words_append n l hn hl
  have hsnd : (scanAux (n ++ l)).2 = n := by rw [scanAux_snd, htw]
  have hfst : (scanAux (n ++ l)).1 = (scanAux l).1 := scanAux_fst_words n l hn
  simp [scanAux, hsnd, hfst, hne]

theorem mkTemplate_cons (n : String) (rest : List String) :
    mkTemplate (n :: rest) = "/:" ++ n ++ mkTemplate rest := rfl

theorem mkTemplate_data (n : String) (rest : List String) :
    (mkTemplate (n :: rest)).data = '/' :: ':' :: (n.data ++ (mkTemplate rest).data) := by
  rw [mkTemplate_cons, String.data_append, String.data_append]
  rfl

theorem hasKeyA_nil {α : Type} (k : String) : hasKeyA ([] : List (String × α)) k = false := rfl

theorem mapSet_keys_of_has {α : Type} (m : List (String × α)) (k : String) (v : α)
    (h : hasKeyA m k = true) :
    (mapSet k v m).map (fun kv => kv.1) = m.map (fun kv => kv.1) := by
  induction m with
  | nil => simp [hasKeyA] at h
  | cons kv rest ih =>
    by_cases hk : (kv.1 == k) = true
    · simp [mapSet, hk]
    · have hrest : hasKeyA rest k = true := by
        simp [hasKeyA] at h ⊢
        rcases h with h | h
        · exact absurd (by simp [h]) hk
        · exact h
      simp [mapSet, hk, ih hrest]

theorem lookupA_mapSet_self {α : Type} (m : List (String × α)) (k : String) (v : α) :
    lookupA (mapSet k v m) k = some v := by
  induction m with
  | nil => simp [mapSet, lookupA]
  | cons kv rest ih =>
    by_cases hk : (kv.1 == k) = true
    · simp [mapSet, hk, lookupA, List.find?]
    · simp only [mapSet, hk, if_false]
      simp only [lookupA, List.find?, hk] at ih ⊢
      exact ih

theorem isPrefixOf_append_of_isPrefixOf {l p t : List Char} (h : l.isPrefixOf p = true) :
    l.isPrefixOf (p ++ t) = true := by
  rw [List.isPrefixOf_iff_prefix] at h ⊢
  exact h.trans (List.prefix_append p t)

theorem startsWith_slash_append (p t : String) (h : jsStartsWith p "/" = true) :
    jsStartsWith (p ++ t) "/" = true := by
  unfold jsStartsWith at h ⊢
  rw [String.data_append]
  exact isPrefixOf_append_of_isPrefixOf h

theorem startsWith_slash_prepend (p : String) : jsStartsWith ("/" ++ p) "/" = true := by
  unfold jsStartsWith
  rw [String.data_append]
  show List.isPrefixOf ['/'] (['/'] ++ p.data) = true
  simp [List.isPrefixOf]

theorem checkRequired_eq (names : List String) (ps : Omap) (route : String) :
    checkRequired names ps route =
      (match firstMissing names ps with
       | some n => .error (.error (missingRawMsg n route))
       | none => .ok ()) := by
  induction names with
  | nil => rfl
  | cons n rest ih =>
    by_cases hk : hasKey ps n = true
    · simp [checkRequired, firstMissing, List.find?, hk, ih]
    · simp only [Bool.not_eq_true] at hk
      simp [checkRequired, firstMissing, List.find?, hk]

theorem substParams_missing (names : List String) (ps : Omap) (m : String)
    (h : firstMissing names ps = some m) :
    ∀ acc, substParams names acc ps = .error (.error (missingSubstMsg m)) := by
  induction names with
  | nil => exact absurd h (by simp [firstMissing])
  | cons n rest ih =>
    intro acc
    by_cases hk : hasKey ps n = true
    · have hrest : firstMissing rest ps = some m := by
        simpa [firstMissing, List.find?, hk] using h
      simp [substParams, hk, ih hrest]
    · simp only [Bool.not_eq_true] at hk
      have hnm : n = m := by
        simpa [firstMissing, List.find?, hk] using h
      subst hnm
      simp [substParams, hk]

theorem validateInputs_raw_missing (r : Router) (opts : CallOptions) (d : RouteDef) (n : String)
    (hl : lookupA r.definitions opts.path = some d)
    (hm : firstMissing (extractParamNames d.path) (opts.params.getD []) = some n) :
    r.validateInputs opts = .error (.error (missingRawMsg n opts.path)) := by
  unfold Router.validateInputs
  rw [hl]
  dsimp only
  rw [checkRequired_eq, hm]

theorem validateInputs_ok (r : Router) (opts : CallOptions) (d : RouteDef) (vp vq : Omap)
    (hl : lookupA r.definitions opts.path = some d)
    (hm : firstMissing (extractParamNames d.path) (opts.params.getD []) = none)
    (hvp : runSchema d.params (opts.params.getD []) = .ok vp)
    (hvq : runSchema d.query (opts.query.getD []) = .ok vq) :
    r.validateInputs opts = .ok (d, vp, vq) := by
  unfold Router.validateInputs
  rw [hl]
  dsimp only
  rw [checkRequired_eq, hm]
  dsimp only
  rw [hvp]
  dsimp only
  rw [hvq]

theorem URLof_eq_path_then_base (r : Router) (opts : CallOptions) :
    Router.URLof r opts =
      (match Router.path r opts with
       | .error e => .error e
       | .ok rel =>
         match (match opts.baseUrl with
                | some b => some b
                | none => r.defaultBaseUrl) with
         | none => .error (.error noBaseMsg)
         | some b =>
           if b == "" then .error (.error noBaseMsg)
           else .ok { relative := rel, base := b }) := by
  unfold Router.URLof Router.path
  cases hv : r.validateInputs opts with
  | error e => rfl
  | ok t =>
    obtain ⟨d, ps, q⟩ := t
    rfl

/-! ## Claim theorems -/

/-- Claim C10 (confirmed): reading the router's `Paths` property raises an
error for every router instance; it exists only for static type
extraction. -/
theorem paths_property_always_raises (r : Router) :
    Router.PathsPropOf r = .error (.error "Paths property is only for type extraction.") := rfl

/-- Claim C4, counterexample: the extraction is not deduplicated — on the
template `/:id/:id` the repeated name appears once per occurrence, not
exactly once as the claim states. -/
theorem extract_repeated_name_counterexample :
    extractParamNames "/:id/:id" = ["id", "id"] ∧
      (extractParamNames "/:id/:id").count "id" ≠ 1 := by
  refine ⟨by decide, by decide⟩

/-- Claim C4 (corrected): `extractParamNames` returns the placeholder
names matching `:[A-Za-z0-9_]+` in left-to-right scan order with one entry
per occurrence (not per distinct name): on a template built from any list
of well-formed names — duplicates included — it returns exactly that
list. -/
theorem extract_param_occurrences (names : List String)
    (h : ∀ n ∈ names, n.data ≠ [] ∧ ∀ c ∈ n.data, isWordChar c = true) :
    extractParamNames (mkTemplate names) = names := by
  induction names with
  | nil => rfl
  | cons n rest ih =>
    have hn := h n (List.mem_cons_self n rest)
    have hrest : ∀ m ∈ rest, m.data ≠ [] ∧ ∀ c ∈ m.data, isWordChar c = true :=
      fun m hm => h m (List.mem_cons_of_mem n hm)
    have hbound : (mkTemplate rest).data = [] ∨
        ∃ c rs, (mkTemplate rest).data = c :: rs ∧ isWordChar c = false := by
      cases rest with
      | nil => exact Or.inl rfl
      | cons m ms =>
        refine Or.inr ⟨'/', ':' :: (m.data ++ (mkTemplate ms).data), ?_, by decide⟩
        exact mkTemplate_data m ms
    show (scanAux (mkTemplate (n :: rest)).data).1 = n :: rest
    rw [mkTemplate_data n rest]
    rw [scanAux_fst_cons_other _ (by decide)]
    rw [scanAux_fst_colon_name n.data (mkTemplate rest).data hn.1 hn.2 hbound]
    have hmk : String.mk n.data = n := String.ext rfl
    rw [hmk]
    exact congrArg (fun l => n :: l) (ih hrest)

/-- Claim C4, witness for the corrected claim: a template that repeats
`id` extracts `["id", "id"]`. -/
theorem extract_param_occurrences_witness :
    extractParamNames (mkTemplate ["id", "id"]) = ["id", "id"] :=
  extract_param_occurrences ["id", "id"] (by decide)

/-- Claim C5, counterexample: the `native` strategy omits a `null`-valued
key entirely instead of serializing it with an empty string value. -/
theorem native_null_counterexample :
    serializeNative [("a", JVal.null)] = "" ∧ ("" : String) ≠ "a=" := by
  refine ⟨rfl, by decide⟩

/-- Claim C5 (corrected): all four strategies produce `""` for an empty
mapping and omit keys whose value is exactly `undefined`; the three
`qs`-backed strategies (brackets, indices, comma) serialize a `null` value
with an empty string value, but `native` omits `null`-valued keys exactly
like `undefined` ones. -/
theorem serializer_empty_undefined_null (fmt : QsArrayFormat) (k : String) (rest : Omap) :
    qsStringify fmt [] = "" ∧
      serializeNative [] = "" ∧
      qsStringify fmt ((k, JVal.undefined) :: rest) = qsStringify fmt rest ∧
      serializeNative ((k, JVal.undefined) :: rest) = serializeNative rest ∧
      qsStringify fmt [(k, JVal.null)] = qsEncode k ++ "=" ∧
      serializeNative ((k, JVal.null) :: rest) = serializeNative rest := by
  refine ⟨rfl, rfl, ?_, ?_, ?_, ?_⟩
  · simp [qsStringify, qsPairs]
  · simp [serializeNative, nativePairs]
  · simp [qsStringify, qsPairs, String.intercalate, String.intercalate.go]
  · simp [serializeNative, nativePairs]

/-- Claim C5, witness: the corrected statement at a concrete strategy, key
and tail mapping. -/
theorem serializer_empty_undefined_null_witness :
    qsStringify .brackets [] = "" ∧
      serializeNative [] = "" ∧
      qsStringify .brackets [("a", JVal.undefined), ("c", JVal.str "v")] =
        qsStringify .brackets [("c", JVal.str "v")] ∧
      serializeNative [("a", JVal.undefined), ("c", JVal.str "v")] =
        serializeNative [("c", JVal.str "v")] ∧
      qsStringify .brackets [("a", JVal.null)] = qsEncode "a" ++ "=" ∧
      serializeNative [("a", JVal.null), ("c", JVal.str "v")] =
        serializeNative [("c", JVal.str "v")] :=
  serializer_empty_undefined_null .brackets "a" [("c", JVal.str "v")]

/-- Claim C6, counterexample: the comma strategy percent-encodes the
joining comma — `{tags: ["a","b"]}` serializes to `tags=a%2Cb`, not
`tags=a,b`. -/
theorem comma_join_encoding_counterexample :
    serializeComma [("tags", JVal.arrL [.str "a", .str "b"])] = "tags=a%2Cb" ∧
      ("tags=a%2Cb" : String) ≠ "tags=a,b" := by
  refine ⟨by decide, by decide⟩

/-- Claim C6 (corrected): on `{tags: ["a","b"]}` the four strategies
produce, with their literal percent-encoding and preserving element order:
brackets → `tags%5B%5D=a&tags%5B%5D=b`, comma → `tags=a%2Cb`,
native → `tags=a&tags=b`, indices → `tags%5B0%5D=a&tags%5B1%5D=b`. -/
theorem serializer_array_formats :
    serializeBrackets [("tags", JVal.arrL [.str "a", .str "b"])] = "tags%5B%5D=a&tags%5B%5D=b" ∧
      serializeComma [("tags", JVal.arrL [.str "a", .str "b"])] = "tags=a%2Cb" ∧
      serializeNative [("tags", JVal.arrL [.str "a", .str "b"])] = "tags=a&tags=b" ∧
      serializeIndices [("tags", JVal.arrL [.str "a", .str "b"])] = "tags%5B0%5D=a&tags%5B1%5D=b" := by
  refine ⟨by decide, by decide, by decide, by decide⟩

/-- Claim C2 (confirmed): `createParseFn` selects the validator shape in
exactly the fixed priority order of §4.1 (callable-with-assert, plain
callable without the standard marker, `parse`, `validateSync`, `create`,
bare `assert`, tagged-standard), first match winning, and returns the
source's invocation for the detected shape; when no shape matches — which
happens precisely when every recognized capability is absent, so there is
nothing to invoke — it fails with the incompatible-validator error
instead. -/
theorem adapter_shape_priority (p : Adapter.SchemaRef) :
    Adapter.createParseFn (.ref p) =
      (match Adapter.detectShapeSpec p with
       | some sh => .ok (Adapter.shapeInvocation p sh)
       | none => .error (.error "Could not find a compatible parser method")) ∧
    (Adapter.detectShapeSpec p = none ↔
      p.callable = none ∧ p.assertMethod = none ∧ p.parse = none ∧
        p.validateSync = none ∧ p.create = none ∧ p.std = none) := by
  obtain ⟨c, a, pr, vs, cr, st⟩ := p
  cases c <;> cases a <;> cases pr <;> cases vs <;> cases cr <;> cases st <;>
    simp [Adapter.createParseFn, Adapter.detectShapeSpec, Adapter.shapeInvocation]

/-- Claim C3, counterexample: the tagged-standard branch of `createParseFn`
does not detect a `Promise` result — property access on the pending result
finds no `issues`, so the parser silently returns `undefined` instead of
failing with the asynchronous-validation error. -/
theorem parse_fn_promise_counterexample :
    Adapter.runCreated (.ref promiseRef) (.str "x") = .ok .undefined ∧
      Adapter.runCreated (.ref promiseRef) (.str "x") ≠
        .error (.error "Async validation is not supported. Please use synchronous Standard Schema validation.") := by
  refine ⟨rfl, fun h => Except.noConfusion h⟩

/-- Claim C3 (corrected): `standardValidate` — the validation routine the
router pipeline actually calls — fails immediately with the
asynchronous-validation error whenever the schema's `validate` returns a
pending `Promise`; the `createParseFn` tagged-standard branch performs no
such detection. -/
theorem standard_validate_rejects_promise (schema : StdSchema) (input : Omap)
    (h : schema input = .promise) :
    standardValidate schema input =
      .error (.error "Async validation is not supported. Please use synchronous Standard Schema validation.") := by
  unfold standardValidate
  rw [h]

/-- Claim C3, witness: a schema that always returns a `Promise` is
rejected with the asynchronous-validation error. -/
theorem standard_validate_rejects_promise_witness :
    standardValidate (fun _ => .promise) [] =
      .error (.error "Async validation is not supported. Please use synchronous Standard Schema validation.") :=
  standard_validate_rejects_promise (fun _ => .promise) [] rfl

/-- Claim C7 (confirmed): registering a definition whose template is
already present emits exactly one warning and overwrites the stored
definition — the overwriting definition is what lookup (hence every later
resolution, which begins with this lookup) returns — while the key
sequence returned by `paths()` is unchanged, so the entry keeps its
original insertion position. -/
theorem duplicate_registration (r : Router) (d : RouteDef)
    (h : hasKeyA r.definitions d.path = true) :
    (Router.register r [d]).2 = [warnMsg d.path] ∧
      lookupA (Router.register r [d]).1.definitions d.path = some d ∧
      (Router.register r [d]).1.pathsList = r.pathsList := by
  refine ⟨?_, ?_, ?_⟩
  · simp [Router.register, h]
  · show lookupA (mapSet d.path d r.definitions) d.path = some d
    exact lookupA_mapSet_self r.definitions d.path d
  · show (mapSet d.path d r.definitions).map (fun kv => kv.1) =
      r.definitions.map (fun kv => kv.1)
    exact mapSet_keys_of_has r.definitions d.path d h

/-- Claim C7, witness: re-registering `/home` on a router that already has
`/home` and `/about` warns once, resolves to the second definition, and
keeps `paths()` as `["/home", "/about"]`. -/
theorem duplicate_registration_witness :
    (Router.register routerHome [defHome2]).2 = [warnMsg "/home"] ∧
      lookupA (Router.register routerHome [defHome2]).1.definitions "/home" = some defHome2 ∧
      (Router.register routerHome [defHome2]).1.pathsList = routerHome.pathsList :=
  duplicate_registration routerHome defHome2 (by decide)

/-- Claim C8 (confirmed): registering `/x/:id` and building with
`{id: "42"}` yields exactly `/x/42`; the value `"a b"` appears
percent-encoded as `a%20b`; and every successful `path()` result starts
with `/`, for every router and options — including templates registered
without a leading slash. -/
theorem path_round_trip :
    Router.path routerXid
        { path := "/x/:id", params := some [("id", .str "42")], query := none, baseUrl := none } =
      .ok "/x/42" ∧
    Router.path routerXid
        { path := "/x/:id", params := some [("id", .str "a b")], query := none, baseUrl := none } =
      .ok "/x/a%20b" ∧
    ∀ (r : Router) (opts : CallOptions) (s : String),
      Router.path r opts = .ok s → jsStartsWith s "/" = true := by
  refine ⟨rfl, rfl, ?_⟩
  intro r opts s h
  unfold Router.path at h
  cases hv : r.validateInputs opts with
  | error e => rw [hv] at h; exact Except.noConfusion h
  | ok triple =>
    rw [hv] at h
    obtain ⟨d, ps, q⟩ := triple
    unfold Router.buildPathAndQuery at h
    dsimp only at h
    cases hs : substParams (extractParamNames d.path) d.path ps with
    | error e => rw [hs] at h; exact Except.noConfusion h
    | ok pathString =>
      rw [hs] at h
      dsimp only at h
      have hfp : jsStartsWith
          (if jsStartsWith pathString "/" then pathString else "/" ++ pathString) "/" = true := by
        by_cases hb : jsStartsWith pathString "/" = true
        · simp [hb]
        · simp only [Bool.not_eq_true] at hb
          simp [hb, startsWith_slash_prepend]
      have hse := Except.ok.inj h
      subst hse
      by_cases hq : (r.querySerializer q == "") = true
      · simpa [hq] using hfp
      · simp only [Bool.not_eq_true] at hq
        simp only [hq, if_false]
        exact startsWith_slash_append _ _ (startsWith_slash_append _ _ hfp)

/-- Claim C8, witness: the universal leading-slash conjunct applied to a
template registered without a leading slash — building `t/:id` with
`{id: "7"}` yields `/t/7`, which starts with `/`. -/
theorem path_round_trip_witness : jsStartsWith "/t/7" "/" = true :=
  path_round_trip.2.2 routerNoSlash
    { path := "t/:id", params := some [("id", .str "7")], query := none, baseUrl := none }
    "/t/7" rfl

/-- Claim C1 (confirmed): for a registered template, the
required-placeholder check runs twice in `path`/`URL`/`href`.  First, when
the caller-supplied raw params (an absent argument defaulting to the empty
mapping) miss a required placeholder, the call fails — before any schema
runs, whatever schemas the definition carries — with the
missing-parameter error naming the first missing placeholder in template
scan order.  Second, when the raw check passes and both schemas succeed
but the schema-validated params miss a placeholder, substitution fails
with the missing-parameter error naming the first placeholder (in scan
order) missing from the validated params. -/
theorem missing_param_two_phase :
    (∀ (r : Router) (opts : CallOptions) (d : RouteDef) (n : String),
      lookupA r.definitions opts.path = some d →
      firstMissing (extractParamNames d.path) (opts.params.getD []) = some n →
      Router.path r opts = .error (.error (missingRawMsg n opts.path)) ∧
        (Router.URLcall r opts).1 = .error (.error (missingRawMsg n opts.path)) ∧
        Router.hrefOf r opts = .error (.error (missingRawMsg n opts.path))) ∧
    (∀ (r : Router) (opts : CallOptions) (d : RouteDef) (vp vq : Omap) (m : String),
      lookupA r.definitions opts.path = some d →
      firstMissing (extractParamNames d.path) (opts.params.getD []) = none →
      runSchema d.params (opts.params.getD []) = .ok vp →
      runSchema d.query (opts.query.getD []) = .ok vq →
      firstMissing (extractParamNames d.path) vp = some m →
      Router.path r opts = .error (.error (missingSubstMsg m)) ∧
        (Router.URLcall r opts).1 = .error (.error (missingSubstMsg m)) ∧
        Router.hrefOf r opts = .error (.error (missingSubstMsg m))) := by
  constructor
  · intro r opts d n hl hm
    have hv := validateInputs_raw_missing r opts d n hl hm
    have hp : Router.path r opts = .error (.error (missingRawMsg n opts.path)) := by
      unfold Router.path
      rw [hv]
    refine ⟨hp, ?_, ?_⟩
    · show Router.URLof r opts = _
      rw [URLof_eq_path_then_base, hp]
    · show Router.URLof r opts = _
      rw [URLof_eq_path_then_base, hp]
  · intro r opts d vp vq m hl hm hvp hvq hmiss
    have hv := validateInputs_ok r opts d vp vq hl hm hvp hvq
    have hsub := substParams_missing (extractParamNames d.path) vp m hmiss d.path
    have hp : Router.path r opts = .error (.error (missingSubstMsg m)) := by
      unfold Router.path
      rw [hv]
      dsimp only
      unfold Router.buildPathAndQuery
      rw [hsub]
    refine ⟨hp, ?_, ?_⟩
    · show Router.URLof r opts = _
      rw [URLof_eq_path_then_base, hp]
    · show Router.URLof r opts = _
      rw [URLof_eq_path_then_base, hp]

/-- Claim C1, witness: on `/u/:a/:b` with empty raw params the call fails
naming `a`, the first placeholder in scan order; on `/w/:x` whose schema
drops every key, raw params `{x: "1"}` pass the first check and the
substitution-time re-check fails naming `x`. -/
theorem missing_param_two_phase_witness :
    Router.path routerAB
        { path := "/u/:a/:b", params := some [], query := none, baseUrl := none } =
      .error (.error (missingRawMsg "a" "/u/:a/:b")) ∧
    Router.path routerDropX
        { path := "/w/:x", params := some [("x", .str "1")], query := none, baseUrl := none } =
      .error (.error (missingSubstMsg "x")) :=
  ⟨(missing_param_two_phase.1 routerAB
      { path := "/u/:a/:b", params := some [], query := none, baseUrl := none }
      defAB "a" rfl rfl).1,
   (missing_param_two_phase.2 routerDropX
      { path := "/w/:x", params := some [("x", .str "1")], query := none, baseUrl := none }
      defDropX [] [] "x" rfl rfl rfl rfl rfl).1⟩

/-- Claim C9 (confirmed): `URL()`/`href()` resolve the effective base URL
as the call-site override when present, else the constructor-level
default; when the pipeline otherwise succeeds (and the available base
URLs are non-empty strings, the code's falsiness test), the call fails
with the no-base-URL error exactly when neither is present; and the call
leaves the router — in particular its stored default base URL —
unchanged. -/
theorem base_url_selection (r : Router) (opts : CallOptions) :
    (Router.URLcall r opts).2 = r ∧
    Router.hrefOf r opts = (Router.URLcall r opts).1 ∧
    (∀ (b : String) (u : URLValue),
      opts.baseUrl = some b → (Router.URLcall r opts).1 = .ok u → u.base = b) ∧
    (∀ u : URLValue,
      opts.baseUrl = none → (Router.URLcall r opts).1 = .ok u →
        r.defaultBaseUrl = some u.base) ∧
    (∀ s : String, Router.path r opts = .ok s →
      (∀ b, opts.baseUrl = some b → b ≠ "") →
      (∀ b, r.defaultBaseUrl = some b → b ≠ "") →
      ((Router.URLcall r opts).1 = .error (.error noBaseMsg) ↔
        opts.baseUrl = none ∧ r.defaultBaseUrl = none)) := by
  refine ⟨rfl, rfl, ?_, ?_, ?_⟩
  · intro b u hb hu
    show u.base = b
    have hu' : Router.URLof r opts = .ok u := hu
    rw [URLof_eq_path_then_base] at hu'
    cases hp : Router.path r opts with
    | error e => rw [hp] at hu'; exact Except.noConfusion hu'
    | ok rel =>
      rw [hp, hb] at hu'
      dsimp only at hu'
      by_cases hbe : (b == "") = true
      · rw [if_pos hbe] at hu'
        exact Except.noConfusion hu'
      · rw [if_neg hbe] at hu'
        have := Except.ok.inj hu'
        rw [show u = { relative := rel, base := b } from this.symm]
  · intro u hb hu
    have hu' : Router.URLof r opts = .ok u := hu
    rw [URLof_eq_path_then_base] at hu'
    cases hp : Router.path r opts with
    | error e => rw [hp] at hu'; exact Except.noConfusion hu'
    | ok rel =>
      rw [hp, hb] at hu'
      dsimp only at hu'
      cases hd : r.defaultBaseUrl with
      | none => rw [hd] at hu'; exact Except.noConfusion hu'
      | some db =>
        rw [hd] at hu'
        dsimp only at hu'
        by_cases hbe : (db == "") = true
        · rw [if_pos hbe] at hu'
          exact Except.noConfusion hu'
        · rw [if_neg hbe] at hu'
          have := Except.ok.inj hu'
          rw [show u = { relative := rel, base := db } from this.symm]
  · intro s hp hov hdef
    have hbase : Router.URLof r opts =
        (match (match opts.baseUrl with
                | some b => some b
                | none => r.defaultBaseUrl) with
         | none => .error (.error noBaseMsg)
         | some b =>
           if b == "" then .error (.error noBaseMsg)
           else .ok { relative := s, base := b }) := by
      rw [URLof_eq_path_then_base, hp]
    cases ho : opts.baseUrl with
    | some b =>
      have hne : b ≠ "" := hov b ho
      have hbeq : (b == "") = false := by
        simp [hne]
      rw [ho] at hbase
      dsimp only at hbase
      rw [hbeq] at hbase
      constructor
      · intro hcontra
        rw [show (Router.URLcall r opts).1 = Router.URLof r opts from rfl, hbase] at hcontra
        simp at hcontra
      · intro hcontra
        exact absurd hcontra.1 (by simp [ho])
    | none =>
      rw [ho] at hbase
      dsimp only at hbase
      cases hd : r.defaultBaseUrl with
      | none =>
        rw [hd] at hbase
        constructor
        · intro _
          exact ⟨rfl, rfl⟩
        · intro _
          exact hbase
      | some db =>
        have hne : db ≠ "" := hdef db hd
        have hbeq : (db == "") = false := by
          simp [hne]
        rw [hd] at hbase
        dsimp only at hbase
        rw [hbeq] at hbase
        constructor
        · intro hcontra
          rw [show (Router.URLcall r opts).1 = Router.URLof r opts from rfl, hbase] at hcontra
          simp at hcontra
        · intro hcontra
          exact absurd hcontra.2 (by simp [hd])

/-- Claim C9, witness: a call-site override is the base the URL value is
built from, and with neither an override nor a constructor default the
call fails with the no-base-URL error. -/
theorem base_url_selection_witness :
    URLValue.base { relative := "/t", base := "https://b.example" } = "https://b.example" ∧
    (Router.URLcall routerNoBase
        { path := "/t", params := none, query := none, baseUrl := none }).1 =
      .error (.error noBaseMsg) :=
  ⟨(base_url_selection routerWithBase
      { path := "/t", params := none, query := none, baseUrl := some "https://b.example" }).2.2.1
      "https://b.example" { relative := "/t", base := "https://b.example" } rfl rfl,
   ((base_url_selection routerNoBase
      { path := "/t", params := none, query := none, baseUrl := none }).2.2.2.2
      "/t" rfl (fun _b hb => Option.noConfusion hb)
      (fun _b hb => Option.noConfusion hb)).mpr ⟨rfl, rfl⟩⟩

end Route
